import Mathlib

/-!
# Verification of the Bedrock-agent GitHub Action core

Shallow embedding of `src/index.js` (repository-analysis entry point) and
`src/unnamed/part_000` (ad-hoc prompt entry point).  External collaborators
(GitHub client, Bedrock agent, file system, clock) are modelled as inputs:
a `World` record supplies the repository listing, the per-path fetch result,
the optional `.gitignore` text, the clock readings and the agent's response.
JavaScript string primitives (`trim`, `split`, `startsWith`, `Array.join`)
are embedded as executable functions over `String.data` so that concrete
runs evaluate inside the kernel.  Base64 decoding of fetched content is
external; the fetch result carries the decoded text directly.
-/

namespace BedrockAction

/-- JavaScript `String.prototype.trim`: strip whitespace from both ends. -/
def jsTrim (s : String) : String :=
  ⟨((s.data.dropWhile Char.isWhitespace).reverse.dropWhile Char.isWhitespace).reverse⟩

/-- Auxiliary for `splitOnChar`: accumulate the current field (reversed). -/
def splitOnCharAux (sep : Char) : List Char → List Char → List String
  | [], acc => [⟨acc.reverse⟩]
  | c :: cs, acc =>
      if c = sep then ⟨acc.reverse⟩ :: splitOnCharAux sep cs []
      else splitOnCharAux sep cs (c :: acc)

/-- JavaScript `String.prototype.split` with a one-character separator. -/
def splitOnChar (sep : Char) (s : String) : List String :=
  splitOnCharAux sep s.data []

/-- JavaScript `String.prototype.startsWith` with a one-character argument. -/
def startsWithChar (c : Char) (s : String) : Bool :=
  match s.data with
  | [] => false
  | c0 :: _ => c0 = c

/-- JavaScript `Array.prototype.join('')`. -/
def concatAll : List String → String
  | [] => ""
  | s :: rest => s ++ concatAll rest

/-- JavaScript `Array.prototype.join(sep)` for a non-empty separator. -/
def joinWith (sep : String) : List String → String
  | [] => ""
  | [s] => s
  | s :: rest => s ++ sep ++ joinWith sep rest

/-- Modelled from the spec: segment-level glob matching of the external
`minimatch` library (not part of this repository's sources): `*` matches any
run of characters within one path segment, `?` matches one character, other
characters match literally.  Fuel-bounded structural recursion; every
recursive call shrinks `ps.length + cs.length`, so the fuel supplied by
`matchSeg` is always sufficient. -/
def matchSegFuel : Nat → List Char → List Char → Bool
  | 0, _, _ => false
  | _ + 1, [], [] => true
  | _ + 1, [], _ :: _ => false
  | fuel + 1, '*' :: ps, [] => matchSegFuel fuel ps []
  | fuel + 1, '*' :: ps, c :: cs =>
      matchSegFuel fuel ps (c :: cs) || matchSegFuel fuel ('*' :: ps) cs
  | fuel + 1, '?' :: ps, _ :: cs => matchSegFuel fuel ps cs
  | _ + 1, _ :: _, [] => false
  | fuel + 1, p :: ps, c :: cs => (p == c) && matchSegFuel fuel ps cs

/-- Segment-level glob match with sufficient fuel. -/
def matchSeg (ps cs : List Char) : Bool :=
  matchSegFuel (ps.length + cs.length + 1) ps cs

/-- Modelled from the spec: path-level glob matching with globstar — `**`
matches zero or more whole path segments, any other pattern segment must
match exactly one path segment via `matchSeg`.  Fuel-bounded as above. -/
def matchSegsFuel : Nat → List (List Char) → List (List Char) → Bool
  | 0, _, _ => false
  | _ + 1, [], [] => true
  | fuel + 1, ['*', '*'] :: ps, segs =>
      matchSegsFuel fuel ps segs ||
        (match segs with
         | [] => false
         | _ :: rest => matchSegsFuel fuel (['*', '*'] :: ps) rest)
  | _ + 1, _ :: _, [] => false
  | fuel + 1, p :: ps, s :: segs => matchSeg p s && matchSegsFuel fuel ps segs
  | _ + 1, [], _ :: _ => false

/-- Path-level glob match with sufficient fuel. -/
def matchSegs (ps segs : List (List Char)) : Bool :=
  matchSegsFuel (ps.length + segs.length + 1) ps segs

/-- Modelled from the spec: `minimatch(path, pattern)` — glob matching with
`*` confined to one path segment and `**` matching across segments
(standard shell-glob-with-globstar semantics, §4.1 of the spec). -/
def minimatch (path pattern : String) : Bool :=
  matchSegs ((splitOnChar '/' pattern).map String.data)
    ((splitOnChar '/' path).map String.data)

/-- A pattern-matching oracle; the production run instantiates it with the
external `minimatch` library, modelled above. -/
abbrev Matcher := String → String → Bool

/-- One enumerated file (`{ filename, status }` as built at lines 65-68 and
92-95 of `src/index.js`). -/
structure FileRecord where
  filename : String
  status : String
deriving Repr, DecidableEq

/-- One item of the repository root listing returned by
`octokit.rest.repos.getContent` (only the fields the action reads). -/
structure RepoItem where
  type : String
  path : String
deriving Repr, DecidableEq

/-- Result of `octokit.rest.repos.getContent({ ..., path: filename })` for a
single file: either the call throws (`failure`), or it yields an item with a
`type` field and (base64-decoded) text content. -/
inductive FetchResult where
  | failure
  | item (type : String) (content : String)
deriving Repr, DecidableEq

/-- Arguments of `agentWrapper.invokeAgent(agentId, agentAliasId, sessionId,
prompt, memoryId)`. -/
structure AgentInvocation where
  agentId : String
  agentAliasId : String
  sessionId : String
  prompt : String
  memoryId : Option String
deriving Repr, DecidableEq

/-- Observable outcome of one run: `core.setFailed` with a message, the
warning early-return when nothing survives filtering, or a completed run
with its agent invocation and printed analysis output. -/
inductive RunOutcome where
  | failed (message : String)
  | warnedEmpty
  | completed (invocation : AgentInvocation) (report : String)
deriving Repr, DecidableEq

/-- Environment variables read by `src/index.js` (absent is modelled as the
empty string, which is exactly what the `!process.env[v]` check treats as
missing). -/
structure Env where
  githubToken : String
  githubRepository : String
deriving Repr, DecidableEq

/-- Raw action inputs of `src/index.js` as returned by `core.getInput` /
`core.getBooleanInput`. -/
structure Inputs where
  ignorePatternsRaw : String
  actionPromptRaw : String
  agentIdRaw : String
  agentAliasIdRaw : String
  debug : Bool
  memoryIdRaw : String
deriving Repr, DecidableEq

/-- GitHub event context read by `src/index.js`. -/
structure Ctx where
  eventName : String
  runId : Nat
deriving Repr, DecidableEq

/-- External collaborators of one run of `src/index.js`: repository listing,
per-path fetch, optional `.gitignore` text, clock readings, agent backend. -/
structure World where
  repoContents : List RepoItem
  fetch : String → FetchResult
  gitignoreText : Option String
  nowISO : String
  agentResponse : String → String

/-- `core.getInput('ignore_patterns').split(',').map(trim).filter(Boolean)`
(lines 28-29). -/
def parsedIgnorePatterns (raw : String) : List String :=
  ((splitOnChar ',' raw).map jsTrim).filter (fun pattern => pattern ≠ "")

/-- `.gitignore` handling (lines 104-115): when the file exists, split on
newlines, trim each line, drop empty lines and lines starting with `#`. -/
def gitignorePatternsOf : Option String → List String
  | none => []
  | some text =>
      ((splitOnChar '\n' text).map jsTrim).filter
        (fun line => line ≠ "" ∧ ¬ startsWithChar '#' line)

/-- `memory_id` input handling: `core.getInput('memory_id').trim() ||
undefined` (line 35 of `src/index.js`, line 15 of the ad-hoc entry point). -/
def memoryIdOf (raw : String) : Option String :=
  if jsTrim raw = "" then none else some (jsTrim raw)

/-- Session id for `workflow_dispatch` (line 46). -/
def dispatchSessionId (runId : Nat) : String :=
  "workflow-" ++ toString runId

/-- `.replace(/[^0-9]/g, '')`: keep only decimal digits. -/
def stripNonDigits (s : String) : String :=
  ⟨s.data.filter Char.isDigit⟩

/-- Session id for `schedule` (line 72-73): current ISO timestamp with all
non-digit characters removed. -/
def scheduleSessionId (nowISO : String) : String :=
  "schedule-" ++ stripNonDigits nowISO

/-- Session id of the ad-hoc entry point (`session-${Date.now()}`,
line 19 of `src/unnamed/part_000`). -/
def adhocSessionId (nowMillis : Nat) : String :=
  "session-" ++ toString nowMillis

/-- `changedFiles` as simulated from the repository root listing
(lines 65-68 / 92-95): keep items of type `file`, status `analyzed`. -/
def changedFilesOf (items : List RepoItem) : List FileRecord :=
  (items.filter (fun item => item.type == "file")).map
    (fun item => ⟨item.path, "analyzed"⟩)

/-- `ignorePatterns.some(pattern => minimatch(filename, pattern))`
(line 171). -/
def isIgnored (m : Matcher) (filename : String) (ignorePatterns : List String) : Bool :=
  ignorePatterns.any (fun pattern => m filename pattern)

/-- The text pushed onto `relevantCode` for one file (line 177). -/
def contentBlockText (filename content : String) : String :=
  "Content of " ++ filename ++ "\n```\n" ++ content ++ "\n```\n"

/-- The text pushed onto `relevantDiffs` for one file (line 185). -/
def statusEntryText (f : FileRecord) : String :=
  "File: " ++ f.filename ++ " (Status: " ++ f.status ++ ")\n"

/-- Per-file contributions of `processFile` (lines 167-187): the optional
`relevantCode` push, the optional `relevantDiffs` push, and log lines. -/
structure FileResult where
  codeBlock : Option String
  diffEntry : Option String
  logs : List String
deriving Repr, DecidableEq

/-- `processFile(file, ignorePatterns, relevantCode, relevantDiffs, ...)`
(lines 167-187) as a pure per-file reduction: ignored files contribute
nothing; otherwise a successful fetch of a `file`-typed item contributes a
content block, any other fetch outcome contributes none, and a status entry
is contributed regardless. -/
def processFile (m : Matcher) (ignorePatterns : List String)
    (fetch : String → FetchResult) (file : FileRecord) : FileResult :=
  if isIgnored m file.filename ignorePatterns then ⟨none, none, []⟩
  else
    match fetch file.filename with
    | .failure =>
        ⟨none, some (statusEntryText file),
          ["Error fetching content for file " ++ file.filename]⟩
    | .item t content =>
        if t = "file" then
          ⟨some (contentBlockText file.filename content), some (statusEntryText file),
            ["Added file content for analysis: " ++ file.filename ++
              " (Status: " ++ file.status ++ ")"]⟩
        else
          ⟨none, some (statusEntryText file), []⟩

/-- The `relevantCode` accumulator after all `processFile` tasks settle
(order taken from the input file list; the spec fixes completion order as
irrelevant). -/
def relevantCodeList (m : Matcher) (pats : List String)
    (fetch : String → FetchResult) (files : List FileRecord) : List String :=
  files.filterMap (fun f => (processFile m pats fetch f).codeBlock)

/-- The `relevantDiffs` accumulator after all `processFile` tasks settle. -/
def relevantDiffsList (m : Matcher) (pats : List String)
    (fetch : String → FetchResult) (files : List FileRecord) : List String :=
  files.filterMap (fun f => (processFile m pats fetch f).diffEntry)

/-- The per-file log lines emitted by the fan-out. -/
def fileLogs (m : Matcher) (pats : List String)
    (fetch : String → FetchResult) (files : List FileRecord) : List String :=
  (files.map (fun f => (processFile m pats fetch f).logs)).flatten

/-- Prompt assembly (lines 132-135). -/
def buildPrompt (relevantCode relevantDiffs : List String) (actionPrompt : String) : String :=
  let diffsPrompt := "Changes:\n" ++ concatAll relevantDiffs
  if relevantCode.length ≠ 0 then
    "Content of Affected Files:\n" ++ concatAll relevantCode ++
      "\nUse the files above to provide context on the changes made.\n" ++
      diffsPrompt ++ "\n" ++ actionPrompt
  else
    diffsPrompt ++ "\n" ++ actionPrompt

/-- `formatMarkdownAnalysis` (lines 190-199); the `new Date().toISOString()`
reading is passed in as `timestamp`. -/
def formatMarkdownAnalysis (response eventType : String)
    (filesAnalyzed diffsAnalyzed : Nat) (changedFiles : List FileRecord)
    (timestamp : String) : String :=
  let fileSummary := joinWith "\n"
    (changedFiles.map (fun file => "- **" ++ file.filename ++ "**: " ++ file.status))
  let eventTypeDisplay :=
    if eventType = "workflow_dispatch" then "Workflow Dispatch" else "Scheduled Run"
  "## Analysis for " ++ eventTypeDisplay ++ " (Time: " ++ timestamp ++ ")\n\n" ++
    "### Files Analyzed: " ++ toString filesAnalyzed ++
    "\n### Diffs Analyzed: " ++ toString diffsAnalyzed ++
    "\n\n### Files Processed:\n" ++ fileSummary ++ "\n\n" ++ response

/-- The shared tail of `main` after the event branch (lines 102-159):
`.gitignore` merge, fan-out, empty-context check, prompt build, agent
invocation, analysis printing.  Log lines omit the `[timestamp]` prefixes
(pure clock noise). -/
def runAnalysis (m : Matcher) (inputs : Inputs) (w : World)
    (eventName sessionId : String) (changedFiles : List FileRecord)
    (logs0 : List String) : RunOutcome × List String :=
  let gitignorePatterns := gitignorePatternsOf w.gitignoreText
  let logs1 := logs0 ++
    ["Retrieved " ++ toString changedFiles.length ++ " changed files"] ++
    (if inputs.debug && w.gitignoreText.isSome then
      ["Loaded .gitignore patterns:\n" ++ joinWith ", " gitignorePatterns]
    else [])
  let allIgnorePatterns := parsedIgnorePatterns inputs.ignorePatternsRaw ++ gitignorePatterns
  let relevantCode := relevantCodeList m allIgnorePatterns w.fetch changedFiles
  let relevantDiffs := relevantDiffsList m allIgnorePatterns w.fetch changedFiles
  let logs2 := logs1 ++ fileLogs m allIgnorePatterns w.fetch changedFiles
  if relevantDiffs.length = 0 ∧ relevantCode.length = 0 then
    (.warnedEmpty, logs2 ++ ["No relevant files or diffs found for analysis."])
  else
    let prompt := buildPrompt relevantCode relevantDiffs (jsTrim inputs.actionPromptRaw)
    let logs3 := logs2 ++
      (if inputs.debug then ["Generated prompt for Bedrock Agent:\n" ++ prompt] else [])
    let response := w.agentResponse prompt
    let logs4 := logs3 ++
      ["Invoking Bedrock Agent with session ID: " ++ sessionId] ++
      (if inputs.debug then ["Bedrock Agent response:\n" ++ response] else [])
    let report := formatMarkdownAnalysis response eventName
      relevantCode.length relevantDiffs.length changedFiles w.nowISO
    (.completed
      ⟨jsTrim inputs.agentIdRaw, jsTrim inputs.agentAliasIdRaw, sessionId, prompt,
        memoryIdOf inputs.memoryIdRaw⟩ report,
      logs4 ++ ["Printing analysis for " ++ eventName ++ " event",
        "Analysis output printed to console"])

/-- `main()` of `src/index.js` (lines 12-163): env-var check, event branch
(session id and file enumeration), then the shared analysis tail. -/
def main (m : Matcher) (env : Env) (inputs : Inputs) (ctx : Ctx) (w : World) :
    RunOutcome × List String :=
  let startLog := ["Starting GitHub Action"]
  if env.githubToken = "" ∨ env.githubRepository = "" then
    (.failed "Error: Missing required environment variables: GITHUB_TOKEN, GITHUB_REPOSITORY.",
      startLog)
  else if ctx.eventName = "workflow_dispatch" then
    runAnalysis m inputs w ctx.eventName (dispatchSessionId ctx.runId)
      (changedFilesOf w.repoContents)
      (startLog ++ ["Processing workflow_dispatch (ID: " ++ toString ctx.runId ++ ")"])
  else if ctx.eventName = "schedule" then
    runAnalysis m inputs w ctx.eventName (scheduleSessionId w.nowISO)
      (changedFilesOf w.repoContents)
      (startLog ++ ["Processing scheduled event (ID: " ++ stripNonDigits w.nowISO ++ ")"])
  else
    (.failed ("Unsupported event type: " ++ ctx.eventName ++
      ". This action only supports workflow_dispatch and schedule events."), startLog)

/-- Raw action inputs of the ad-hoc entry point `src/unnamed/part_000`. -/
structure AdhocInputs where
  actionPromptRaw : String
  agentIdRaw : String
  agentAliasIdRaw : String
  memoryIdRaw : String
  debug : Bool
deriving Repr, DecidableEq

/-- External collaborators of the ad-hoc entry point: clock and agent. -/
structure AdhocWorld where
  nowMillis : Nat
  agentResponse : String → String

/-- `main()` of `src/unnamed/part_000` (lines 7-37): trim inputs, derive a
timestamp session id, invoke the agent with the instruction as the whole
prompt, print the response. -/
def adhocMain (inputs : AdhocInputs) (w : AdhocWorld) : RunOutcome × List String :=
  let actionPrompt := jsTrim inputs.actionPromptRaw
  let sessionId := adhocSessionId w.nowMillis
  let logs0 := ["Starting GitHub Action"] ++
    (if inputs.debug then
      ["Using prompt: " ++ actionPrompt, "Session ID: " ++ sessionId]
    else [])
  let response := w.agentResponse actionPrompt
  (.completed
    ⟨jsTrim inputs.agentIdRaw, jsTrim inputs.agentAliasIdRaw, sessionId, actionPrompt,
      memoryIdOf inputs.memoryIdRaw⟩
    ("## Bedrock Agent Response\n\n" ++ response),
    logs0 ++ ["Invoking Bedrock Agent", "Action completed successfully"])

/-- `sub` occurs contiguously inside `s`. -/
def containsSubstring (s sub : String) : Prop :=
  sub.data <:+: s.data

instance (s sub : String) : Decidable (containsSubstring s sub) :=
  List.decidableInfix sub.data s.data

/-- Modelled from the spec: §4.1's wording of the rule-set merge — split the
caller's comma-delimited list, trim, drop empties; split the ignore-file
text on line breaks, trim, drop empty lines and lines whose first non-space
character is `#`; concatenate with no further normalization. -/
def specMerge (callerRaw : String) (ignoreFileText : Option String) : List String :=
  (((splitOnChar ',' callerRaw).map jsTrim).filter (fun entry => entry ≠ "")) ++
    (match ignoreFileText with
     | none => []
     | some text =>
         ((splitOnChar '\n' text).map jsTrim).filter
           (fun line => line ≠ "" ∧ ¬ startsWithChar '#' line))

/-- Holds exactly on the `completed` outcome (agent invoked, report printed). -/
def RunOutcome.isCompleted : RunOutcome → Bool
  | .completed _ _ => true
  | _ => false

/-- The printed analysis output of a completed run (empty otherwise). -/
def RunOutcome.reportText : RunOutcome → String
  | .completed _ report => report
  | _ => ""

/-- A calendar instant as rendered by JavaScript `Date.prototype.toISOString`
(an external builtin): the seven zero-padded decimal fields of
`YYYY-MM-DDTHH:MM:SS.sssZ`. -/
structure DateTime where
  year : Nat
  month : Nat
  day : Nat
  hour : Nat
  minute : Nat
  second : Nat
  millis : Nat
deriving Repr, DecidableEq

/-- Decimal rendering of `n`, zero-padded to exactly `w` characters
(truncating higher digits, which the field bounds of `DateTime.Valid`
exclude). -/
def padChars : Nat → Nat → List Char
  | 0, _ => []
  | w + 1, n => padChars w (n / 10) ++ [Nat.digitChar (n % 10)]

/-- Field bounds under which the ISO-8601 rendering is faithful (true
calendar instants satisfy far tighter bounds). -/
def DateTime.Valid (dt : DateTime) : Prop :=
  dt.year < 10000 ∧ dt.month < 100 ∧ dt.day < 100 ∧ dt.hour < 100 ∧
    dt.minute < 100 ∧ dt.second < 100 ∧ dt.millis < 1000

instance (dt : DateTime) : Decidable dt.Valid := by
  unfold DateTime.Valid; infer_instance

/-- Modelled from the spec: character content of
`new Date().toISOString()` — `YYYY-MM-DDTHH:MM:SS.sssZ`. -/
def isoChars (dt : DateTime) : List Char :=
  padChars 4 dt.year ++ ['-'] ++ padChars 2 dt.month ++ ['-'] ++ padChars 2 dt.day ++
    ['T'] ++ padChars 2 dt.hour ++ [':'] ++ padChars 2 dt.minute ++ [':'] ++
    padChars 2 dt.second ++ ['.'] ++ padChars 3 dt.millis ++ ['Z']

/-- Modelled from the spec: `new Date().toISOString()` as a string. -/
def isoString (dt : DateTime) : String := ⟨isoChars dt⟩

/-- Demonstration fetch: `a.txt` exists with content `hello`; every other
path fails. -/
def demoFetch : String → FetchResult :=
  fun p => if p = "a.txt" then FetchResult.item "file" "hello" else FetchResult.failure

/-- Demonstration environment with both variables present. -/
def demoEnv : Env := ⟨"token", "owner/repo"⟩

/-- Demonstration world: root listing `a.txt`, `b.log`; no `.gitignore`. -/
def demoWorld : World :=
  ⟨[⟨"file", "a.txt"⟩, ⟨"file", "b.log"⟩], demoFetch, none,
    "2026-01-01T00:00:00.000Z", fun _ => "RESP"⟩

/-- Demonstration world with an empty repository listing. -/
def emptyWorld : World :=
  ⟨[], demoFetch, none, "2026-01-01T00:00:00.000Z", fun _ => "RESP"⟩

/-- Demonstration clock/agent for the ad-hoc entry point. -/
def adhocDemoWorld : AdhocWorld := ⟨1700000000000, fun _ => "RESP"⟩

/-- Demonstration world where the only file's fetch fails. -/
def failWorld : World :=
  ⟨[⟨"file", "c.bin"⟩], fun _ => FetchResult.failure, none, "ts", fun _ => "R"⟩

end BedrockAction

namespace BedrockAction

/-! ## Helper lemmas -/

lemma processFile_diffEntry (m : Matcher) (pats : List String)
    (fetch : String → FetchResult) (g : FileRecord) :
    (processFile m pats fetch g).diffEntry =
      if isIgnored m g.filename pats then none else some (statusEntryText g) := by
  unfold processFile
  by_cases hig : isIgnored m g.filename pats
  · simp [hig]
  · rcases hf : fetch g.filename with _ | ⟨t, c⟩
    · simp [hig, hf]
    · by_cases ht : t = "file" <;> simp [hig, hf, ht]

lemma processFile_codeBlock (m : Matcher) (pats : List String)
    (fetch : String → FetchResult) (g : FileRecord) :
    (processFile m pats fetch g).codeBlock =
      if isIgnored m g.filename pats then none
      else
        match fetch g.filename with
        | FetchResult.failure => none
        | FetchResult.item t c =>
            if t = "file" then some (contentBlockText g.filename c) else none := by
  unfold processFile
  by_cases hig : isIgnored m g.filename pats
  · simp [hig]
  · rcases hf : fetch g.filename with _ | ⟨t, c⟩
    · simp [hig, hf]
    · by_cases ht : t = "file" <;> simp [hig, hf, ht]

lemma relevantDiffsList_length (m : Matcher) (pats : List String)
    (fetch : String → FetchResult) (files : List FileRecord) :
    (relevantDiffsList m pats fetch files).length =
      (files.filter (fun g => !isIgnored m g.filename pats)).length := by
  have hfun : (fun f => (processFile m pats fetch f).diffEntry) =
      (fun f : FileRecord =>
        if isIgnored m f.filename pats then none else some (statusEntryText f)) :=
    funext (processFile_diffEntry m pats fetch)
  rw [relevantDiffsList, hfun]
  induction files with
  | nil => rfl
  | cons f fs ih =>
      rw [List.filterMap_cons, List.filter_cons]
      by_cases hig : isIgnored m f.filename pats
      · simp [hig, ih]
      · simp [hig, ih]

/-! ## Claim theorems -/

/-- C1: a FileRecord not matched by the ignore patterns always contributes
exactly one status entry, whatever the fetch outcome; it contributes a
content block iff its fetch succeeds with an item of type `file`; on fetch
failure no content block is produced but the status entry is; and across a
whole run the number of status entries equals the number of non-ignored
files. -/
theorem processFile_status_and_content (m : Matcher) (pats : List String)
    (fetch : String → FetchResult) (f : FileRecord)
    (h : isIgnored m f.filename pats = false) :
    (processFile m pats fetch f).diffEntry = some (statusEntryText f)
    ∧ ((processFile m pats fetch f).codeBlock.isSome = true ↔
        ∃ c, fetch f.filename = FetchResult.item "file" c)
    ∧ (fetch f.filename = FetchResult.failure →
        (processFile m pats fetch f).codeBlock = none)
    ∧ ∀ files : List FileRecord,
        (relevantDiffsList m pats fetch files).length =
          (files.filter (fun g => !isIgnored m g.filename pats)).length := by
  have h' : ¬ isIgnored m f.filename pats := by simp [h]
  refine ⟨by simp [processFile_diffEntry, h'], ?_, ?_, fun files => relevantDiffsList_length m pats fetch files⟩
  · rw [processFile_codeBlock]
    rcases hf : fetch f.filename with _ | ⟨t, c⟩
    · simp [h']
    · by_cases ht : t = "file"
      · subst ht
        simp [h']
      · simp [h', ht]
  · intro hfail
    rw [processFile_codeBlock]
    simp [h', hfail]

end BedrockAction

namespace BedrockAction

set_option maxRecDepth 100000 in
/-- Witness for C1 at a concrete run: `a.txt` survives the `*.log` pattern,
its fetch succeeds, and the aggregate status-entry count matches. -/
theorem processFile_status_and_content_witness :
    isIgnored minimatch "a.txt" ["*.log"] = false
    ∧ (processFile minimatch ["*.log"] demoFetch ⟨"a.txt", "analyzed"⟩).diffEntry =
        some (statusEntryText ⟨"a.txt", "analyzed"⟩)
    ∧ ((processFile minimatch ["*.log"] demoFetch ⟨"a.txt", "analyzed"⟩).codeBlock.isSome = true ↔
        ∃ c, demoFetch "a.txt" = FetchResult.item "file" c)
    ∧ (demoFetch "a.txt" = FetchResult.failure →
        (processFile minimatch ["*.log"] demoFetch ⟨"a.txt", "analyzed"⟩).codeBlock = none)
    ∧ (relevantDiffsList minimatch ["*.log"] demoFetch
          [⟨"a.txt", "analyzed"⟩, ⟨"b.log", "analyzed"⟩]).length =
        ([⟨"a.txt", "analyzed"⟩, ⟨"b.log", "analyzed"⟩].filter
          (fun g : FileRecord => !isIgnored minimatch g.filename ["*.log"])).length := by
  have T := processFile_status_and_content minimatch ["*.log"] demoFetch
    ⟨"a.txt", "analyzed"⟩ (by decide)
  exact ⟨by decide, T.1, T.2.1, T.2.2.1,
    T.2.2.2 [⟨"a.txt", "analyzed"⟩, ⟨"b.log", "analyzed"⟩]⟩

/-- C5: the merged rule set is exactly the caller's comma-split, trimmed,
empties-dropped list followed by the ignore-file's line-split, trimmed,
comment-and-empty-dropped list (the spec-worded `specMerge`), with no
de-duplication or other normalization: every pattern occurs exactly as often
as in the two parts combined. -/
theorem allIgnorePatterns_merge (raw : String) (t : Option String) :
    parsedIgnorePatterns raw ++ gitignorePatternsOf t = specMerge raw t
    ∧ ∀ p : String,
        (parsedIgnorePatterns raw ++ gitignorePatternsOf t).count p =
          (parsedIgnorePatterns raw).count p + (gitignorePatternsOf t).count p := by
  constructor
  · cases t <;> rfl
  · intro p
    exact List.count_append p _ _

/-- C6: a path is ignored iff some pattern of the rule set matches it; the
decision is invariant under permutation and duplication of the rule set, and
the empty rule set ignores nothing. -/
theorem isIgnored_any_perm_dup_empty (m : Matcher) (path : String)
    (rules rules' : List String) (hperm : rules.Perm rules') :
    (isIgnored m path rules = true ↔ ∃ pat ∈ rules, m path pat = true)
    ∧ isIgnored m path rules = isIgnored m path rules'
    ∧ isIgnored m path (rules ++ rules) = isIgnored m path rules
    ∧ isIgnored m path ([] : List String) = false := by
  refine ⟨by simp [isIgnored, List.any_eq_true], ?_, ?_, rfl⟩
  · rw [Bool.eq_iff_iff]
    simp only [isIgnored, List.any_eq_true]
    exact ⟨fun ⟨x, hx, hp⟩ => ⟨x, hperm.mem_iff.mp hx, hp⟩,
      fun ⟨x, hx, hp⟩ => ⟨x, hperm.mem_iff.mpr hx, hp⟩⟩
  · simp [isIgnored, List.any_append]

/-- Witness for C6 at a concrete rule set and its transposition. -/
theorem isIgnored_any_perm_dup_empty_witness :
    (isIgnored minimatch "b.log" ["*.log", "dist"] = true ↔
      ∃ pat ∈ ["*.log", "dist"], minimatch "b.log" pat = true)
    ∧ isIgnored minimatch "b.log" ["*.log", "dist"] =
        isIgnored minimatch "b.log" ["dist", "*.log"]
    ∧ isIgnored minimatch "b.log" (["*.log", "dist"] ++ ["*.log", "dist"]) =
        isIgnored minimatch "b.log" ["*.log", "dist"]
    ∧ isIgnored minimatch "b.log" ([] : List String) = false :=
  isIgnored_any_perm_dup_empty minimatch "b.log" ["*.log", "dist"] ["dist", "*.log"]
    (List.Perm.swap "dist" "*.log" [])

set_option maxRecDepth 100000 in
/-- C2 (counterexample): with an empty content-block list the built prompt
can still contain the literal `"Content of Affected Files:"` — take the
instruction itself to contain it.  This falsifies the claim's "exactly
when the content-block list is non-empty". -/
theorem buildPrompt_header_cex :
    containsSubstring (buildPrompt [] [] "Content of Affected Files:")
      "Content of Affected Files:" := by decide

/-- C2 (amended): the prompt equations hold as claimed; with non-empty
content blocks the prompt always contains `"Content of Affected Files:"`;
with empty content blocks the prompt is the `Changes:` rendering, so it
contains that literal only if the rendered status entries together with the
instruction contain it. -/
theorem buildPrompt_spec (code diffs : List String) (instr : String) :
    (code ≠ [] →
      buildPrompt code diffs instr =
        "Content of Affected Files:\n" ++ concatAll code ++
          "\nUse the files above to provide context on the changes made.\nChanges:\n" ++
          concatAll diffs ++ "\n" ++ instr
      ∧ containsSubstring (buildPrompt code diffs instr) "Content of Affected Files:")
    ∧ (code = [] →
      buildPrompt code diffs instr = "Changes:\n" ++ concatAll diffs ++ "\n" ++ instr
      ∧ (¬ containsSubstring ("Changes:\n" ++ concatAll diffs ++ "\n" ++ instr)
            "Content of Affected Files:" →
          ¬ containsSubstring (buildPrompt code diffs instr)
            "Content of Affected Files:")) := by
  constructor
  · intro hne
    have hlen : code.length ≠ 0 := fun hl => hne (List.length_eq_zero.mp hl)
    have hbp : buildPrompt code diffs instr =
        "Content of Affected Files:\n" ++ concatAll code ++
          "\nUse the files above to provide context on the changes made.\n" ++
          ("Changes:\n" ++ concatAll diffs) ++ "\n" ++ instr := by
      simp only [buildPrompt]
      rw [if_pos hlen]
    have heq : buildPrompt code diffs instr =
        "Content of Affected Files:\n" ++ concatAll code ++
          "\nUse the files above to provide context on the changes made.\nChanges:\n" ++
          concatAll diffs ++ "\n" ++ instr := by
      rw [hbp]
      apply String.ext
      simp only [String.data_append, List.append_assoc]
      simp only [List.cons_append, List.nil_append]
    refine ⟨heq, ?_⟩
    have h0 : ("Content of Affected Files:" : String).data <+:
        ("Content of Affected Files:\n" : String).data := ⟨['\n'], rfl⟩
    have hpre : ("Content of Affected Files:" : String).data <+:
        (buildPrompt code diffs instr).data := by
      rw [heq]
      simp only [String.data_append]
      exact ((((h0.trans (List.prefix_append _ _)).trans
        (List.prefix_append _ _)).trans (List.prefix_append _ _)).trans
          (List.prefix_append _ _)).trans (List.prefix_append _ _)
    exact hpre.isInfix
  · intro hempty
    subst hempty
    have heq : buildPrompt [] diffs instr =
        "Changes:\n" ++ concatAll diffs ++ "\n" ++ instr := by
      simp [buildPrompt]
    exact ⟨heq, by rw [heq]; exact fun h => h⟩

set_option maxRecDepth 100000 in
/-- Witness for C2 (amended) at concrete lists. -/
theorem buildPrompt_spec_witness :
    (buildPrompt ["C\n"] ["S\n"] "go" =
      "Content of Affected Files:\n" ++ concatAll ["C\n"] ++
        "\nUse the files above to provide context on the changes made.\nChanges:\n" ++
        concatAll ["S\n"] ++ "\n" ++ "go"
      ∧ containsSubstring (buildPrompt ["C\n"] ["S\n"] "go") "Content of Affected Files:")
    ∧ buildPrompt [] ["S\n"] "go" = "Changes:\n" ++ concatAll ["S\n"] ++ "\n" ++ "go" := by
  refine ⟨(buildPrompt_spec ["C\n"] ["S\n"] "go").1 (by decide),
    ((buildPrompt_spec [] ["S\n"] "go").2 rfl).1⟩

end BedrockAction

namespace BedrockAction

/-! ## Helper lemmas about aggregation, joins and the main pipeline -/

lemma infix_of_append_left {α : Type} {l m : List α} (k : List α)
    (h : l <:+: m) : l <:+: k ++ m := by
  obtain ⟨s, t, rfl⟩ := h
  exact ⟨k ++ s, t, by simp [List.append_assoc]⟩

lemma infix_of_append_right {α : Type} {l m : List α} (k : List α)
    (h : l <:+: m) : l <:+: m ++ k := by
  obtain ⟨s, t, rfl⟩ := h
  exact ⟨s, t ++ k, by simp [List.append_assoc]⟩

lemma mem_data_infix_joinWith (sep : String) (l : List String) (s : String)
    (h : s ∈ l) : s.data <:+: (joinWith sep l).data := by
  induction l with
  | nil => cases h
  | cons a rest ih =>
      cases rest with
      | nil =>
          rcases List.mem_singleton.mp h with rfl
          exact List.infix_refl _
      | cons b rest' =>
          rcases List.mem_cons.mp h with rfl | hmem
          · apply List.IsPrefix.isInfix
            refine ⟨(sep ++ joinWith sep (b :: rest')).data, ?_⟩
            show s.data ++ (sep ++ joinWith sep (b :: rest')).data =
              (joinWith sep (s :: b :: rest')).data
            simp [joinWith, String.data_append, List.append_assoc]
          · refine (ih hmem).trans ?_
            apply List.IsSuffix.isInfix
            refine ⟨(a ++ sep).data, ?_⟩
            show (a ++ sep).data ++ (joinWith sep (b :: rest')).data =
              (joinWith sep (a :: b :: rest')).data
            simp [joinWith, String.data_append, List.append_assoc]

lemma fileRecord_line_in_report (response eventType : String) (fa da : Nat)
    (changedFiles : List FileRecord) (ts : String) (f : FileRecord)
    (hf : f ∈ changedFiles) :
    containsSubstring (formatMarkdownAnalysis response eventType fa da changedFiles ts)
      ("- **" ++ f.filename ++ "**: " ++ f.status) := by
  have hline : ("- **" ++ f.filename ++ "**: " ++ f.status) ∈
      changedFiles.map (fun file => "- **" ++ file.filename ++ "**: " ++ file.status) :=
    List.mem_map_of_mem _ hf
  have h1 : ("- **" ++ f.filename ++ "**: " ++ f.status).data <:+:
      (joinWith "\n"
        (changedFiles.map (fun file => "- **" ++ file.filename ++ "**: " ++ file.status))).data :=
    mem_data_infix_joinWith _ _ _ hline
  show ("- **" ++ f.filename ++ "**: " ++ f.status).data <:+:
    (formatMarkdownAnalysis response eventType fa da changedFiles ts).data
  simp only [formatMarkdownAnalysis, String.data_append]
  exact infix_of_append_right _ (infix_of_append_right _ (infix_of_append_left _ h1))

lemma relevantCodeList_filter (m : Matcher) (pats : List String)
    (fetch : String → FetchResult) (files : List FileRecord) :
    relevantCodeList m pats fetch files =
      relevantCodeList m pats fetch
        (files.filter (fun g => !isIgnored m g.filename pats)) := by
  induction files with
  | nil => rfl
  | cons f fs ih =>
      by_cases hig : isIgnored m f.filename pats
      · have hnone : (processFile m pats fetch f).codeBlock = none := by
          simp [processFile, hig]
        simp only [relevantCodeList, List.filter_cons, List.filterMap_cons] at ih ⊢
        simp [hig, hnone, ih]
      · simp only [relevantCodeList, List.filter_cons, List.filterMap_cons] at ih ⊢
        cases hcb : (processFile m pats fetch f).codeBlock <;> simp [hig, hcb, ih]

lemma relevantDiffsList_filter (m : Matcher) (pats : List String)
    (fetch : String → FetchResult) (files : List FileRecord) :
    relevantDiffsList m pats fetch files =
      relevantDiffsList m pats fetch
        (files.filter (fun g => !isIgnored m g.filename pats)) := by
  induction files with
  | nil => rfl
  | cons f fs ih =>
      by_cases hig : isIgnored m f.filename pats
      · have hnone : (processFile m pats fetch f).diffEntry = none := by
          simp [processFile, hig]
        simp only [relevantDiffsList, List.filter_cons, List.filterMap_cons] at ih ⊢
        simp [hig, hnone, ih]
      · simp only [relevantDiffsList, List.filter_cons, List.filterMap_cons] at ih ⊢
        cases hcb : (processFile m pats fetch f).diffEntry <;> simp [hig, hcb, ih]

lemma runAnalysis_completed_inv (m : Matcher) (inputs : Inputs) (w : World)
    (eventName sessionId : String) (changedFiles : List FileRecord)
    (logs0 : List String) (inv : AgentInvocation) (report : String)
    (h : (runAnalysis m inputs w eventName sessionId changedFiles logs0).1 =
      RunOutcome.completed inv report) :
    inv = ⟨jsTrim inputs.agentIdRaw, jsTrim inputs.agentAliasIdRaw, sessionId,
      buildPrompt
        (relevantCodeList m
          (parsedIgnorePatterns inputs.ignorePatternsRaw ++ gitignorePatternsOf w.gitignoreText)
          w.fetch changedFiles)
        (relevantDiffsList m
          (parsedIgnorePatterns inputs.ignorePatternsRaw ++ gitignorePatternsOf w.gitignoreText)
          w.fetch changedFiles)
        (jsTrim inputs.actionPromptRaw),
      memoryIdOf inputs.memoryIdRaw⟩ := by
  simp only [runAnalysis] at h
  split at h
  · simp at h
  · simp only [] at h
    injection h with hinv hrep
    exact hinv.symm

lemma main_completed_inv (m : Matcher) (env : Env) (inputs : Inputs) (ctx : Ctx)
    (w : World) (inv : AgentInvocation) (report : String)
    (h : (main m env inputs ctx w).1 = RunOutcome.completed inv report) :
    inv = ⟨jsTrim inputs.agentIdRaw, jsTrim inputs.agentAliasIdRaw,
      (if ctx.eventName = "workflow_dispatch" then dispatchSessionId ctx.runId
       else scheduleSessionId w.nowISO),
      buildPrompt
        (relevantCodeList m
          (parsedIgnorePatterns inputs.ignorePatternsRaw ++ gitignorePatternsOf w.gitignoreText)
          w.fetch (changedFilesOf w.repoContents))
        (relevantDiffsList m
          (parsedIgnorePatterns inputs.ignorePatternsRaw ++ gitignorePatternsOf w.gitignoreText)
          w.fetch (changedFilesOf w.repoContents))
        (jsTrim inputs.actionPromptRaw),
      memoryIdOf inputs.memoryIdRaw⟩ := by
  simp only [main] at h
  split_ifs at h with h1 h2 h3
  all_goals
    rcases runAnalysis_completed_inv _ _ _ _ _ _ _ _ _ h with rfl
    simp [h2]

lemma main_completes (m : Matcher) (env : Env) (inputs : Inputs) (ctx : Ctx)
    (w : World)
    (henv1 : env.githubToken ≠ "") (henv2 : env.githubRepository ≠ "")
    (hev : ctx.eventName = "workflow_dispatch" ∨ ctx.eventName = "schedule")
    (hne : ¬(relevantDiffsList m
        (parsedIgnorePatterns inputs.ignorePatternsRaw ++ gitignorePatternsOf w.gitignoreText)
        w.fetch (changedFilesOf w.repoContents) = []
      ∧ relevantCodeList m
        (parsedIgnorePatterns inputs.ignorePatternsRaw ++ gitignorePatternsOf w.gitignoreText)
        w.fetch (changedFilesOf w.repoContents) = [])) :
    ((main m env inputs ctx w).1).isCompleted = true := by
  rcases hev with hev | hev <;>
    simp [main, runAnalysis, henv1, henv2, hev, hne, RunOutcome.isCompleted]

end BedrockAction

namespace BedrockAction

set_option maxRecDepth 1000000 in
/-- C3 (counterexample): in a run with files `a.txt`, `b.log` and caller
pattern `*.log`, the file `b.log` is matched by an ignore pattern, yet the
completed run's rendered AnalysisReport still contains `b.log` in its file
summary — the matched file is not excluded from every downstream output. -/
theorem ignored_file_in_report_cex :
    isIgnored minimatch "b.log"
      (parsedIgnorePatterns "*.log" ++ gitignorePatternsOf none) = true
    ∧ containsSubstring
        ((main minimatch demoEnv ⟨"*.log", "Analyze.", "AG", "AL", false, ""⟩
          ⟨"workflow_dispatch", 42⟩ demoWorld).1).reportText "b.log" :=
  ⟨by decide, by decide⟩

/-- C3 (amended): a FileRecord matched by an ignore pattern produces neither
a ContentBlock nor a StatusEntry, and both aggregation lists (hence the
prompt built from them) are unchanged if all matched files are removed; but
the rendered AnalysisReport lists every enumerated FileRecord, so the
matched file still appears in the report's file summary. -/
theorem ignored_file_excluded_except_report (m : Matcher) (pats : List String)
    (fetch : String → FetchResult) (files : List FileRecord) (f : FileRecord)
    (hmem : f ∈ files) (hmatch : isIgnored m f.filename pats = true) :
    (processFile m pats fetch f).codeBlock = none
    ∧ (processFile m pats fetch f).diffEntry = none
    ∧ relevantCodeList m pats fetch files =
        relevantCodeList m pats fetch
          (files.filter (fun g => !isIgnored m g.filename pats))
    ∧ relevantDiffsList m pats fetch files =
        relevantDiffsList m pats fetch
          (files.filter (fun g => !isIgnored m g.filename pats))
    ∧ ∀ response eventType fa da ts,
        containsSubstring (formatMarkdownAnalysis response eventType fa da files ts)
          ("- **" ++ f.filename ++ "**: " ++ f.status) :=
  ⟨by simp [processFile, hmatch], by simp [processFile, hmatch],
    relevantCodeList_filter m pats fetch files,
    relevantDiffsList_filter m pats fetch files,
    fun response eventType fa da ts =>
      fileRecord_line_in_report response eventType fa da files ts f hmem⟩

set_option maxRecDepth 1000000 in
/-- Witness for C3 (amended) at the `a.txt`/`b.log` run. -/
theorem ignored_file_excluded_except_report_witness :
    (processFile minimatch ["*.log"] demoFetch ⟨"b.log", "analyzed"⟩).codeBlock = none
    ∧ (processFile minimatch ["*.log"] demoFetch ⟨"b.log", "analyzed"⟩).diffEntry = none
    ∧ relevantCodeList minimatch ["*.log"] demoFetch
        [⟨"a.txt", "analyzed"⟩, ⟨"b.log", "analyzed"⟩] =
      relevantCodeList minimatch ["*.log"] demoFetch
        ([⟨"a.txt", "analyzed"⟩, ⟨"b.log", "analyzed"⟩].filter
          (fun g : FileRecord => !isIgnored minimatch g.filename ["*.log"]))
    ∧ relevantDiffsList minimatch ["*.log"] demoFetch
        [⟨"a.txt", "analyzed"⟩, ⟨"b.log", "analyzed"⟩] =
      relevantDiffsList minimatch ["*.log"] demoFetch
        ([⟨"a.txt", "analyzed"⟩, ⟨"b.log", "analyzed"⟩].filter
          (fun g : FileRecord => !isIgnored minimatch g.filename ["*.log"]))
    ∧ containsSubstring
        (formatMarkdownAnalysis "RESP" "workflow_dispatch" 1 1
          [⟨"a.txt", "analyzed"⟩, ⟨"b.log", "analyzed"⟩] "2026-01-01T00:00:00.000Z")
        ("- **" ++ "b.log" ++ "**: " ++ "analyzed") := by
  have T := ignored_file_excluded_except_report minimatch ["*.log"] demoFetch
    [⟨"a.txt", "analyzed"⟩, ⟨"b.log", "analyzed"⟩] ⟨"b.log", "analyzed"⟩
    (by decide) (by decide)
  exact ⟨T.1, T.2.1, T.2.2.1, T.2.2.2.1,
    T.2.2.2.2 "RESP" "workflow_dispatch" 1 1 "2026-01-01T00:00:00.000Z"⟩

set_option maxRecDepth 1000000 in
/-- C4 (counterexample): a run whose instruction input is whitespace-only
(empty after trimming) is not aborted: it completes and invokes the agent. -/
theorem empty_instruction_completes_cex :
    jsTrim "   " = ""
    ∧ ((main minimatch demoEnv ⟨"", "   ", "AG", "AL", false, ""⟩
        ⟨"workflow_dispatch", 42⟩ demoWorld).1).isCompleted = true :=
  ⟨by decide, by decide⟩

/-- C4 (amended): the code performs no validation of the instruction input.
When the instruction is empty after trimming the run is not aborted: with
the required environment variables present, a supported event and a
non-empty aggregation result, the run completes and invokes the agent, the
empty instruction being appended to the prompt as-is.  Only missing
environment variables or an unsupported event kind abort before invocation. -/
theorem empty_instruction_no_abort (m : Matcher) (env : Env) (inputs : Inputs)
    (ctx : Ctx) (w : World)
    (hinstr : jsTrim inputs.actionPromptRaw = "")
    (henv1 : env.githubToken ≠ "") (henv2 : env.githubRepository ≠ "")
    (hev : ctx.eventName = "workflow_dispatch" ∨ ctx.eventName = "schedule")
    (hne : ¬(relevantDiffsList m
        (parsedIgnorePatterns inputs.ignorePatternsRaw ++ gitignorePatternsOf w.gitignoreText)
        w.fetch (changedFilesOf w.repoContents) = []
      ∧ relevantCodeList m
        (parsedIgnorePatterns inputs.ignorePatternsRaw ++ gitignorePatternsOf w.gitignoreText)
        w.fetch (changedFilesOf w.repoContents) = [])) :
    ((main m env inputs ctx w).1).isCompleted = true
    ∧ ∀ inv report, (main m env inputs ctx w).1 = RunOutcome.completed inv report →
        inv.prompt = buildPrompt
          (relevantCodeList m
            (parsedIgnorePatterns inputs.ignorePatternsRaw ++ gitignorePatternsOf w.gitignoreText)
            w.fetch (changedFilesOf w.repoContents))
          (relevantDiffsList m
            (parsedIgnorePatterns inputs.ignorePatternsRaw ++ gitignorePatternsOf w.gitignoreText)
            w.fetch (changedFilesOf w.repoContents))
          "" := by
  refine ⟨main_completes m env inputs ctx w henv1 henv2 hev hne, ?_⟩
  intro inv report h
  rcases main_completed_inv m env inputs ctx w inv report h with rfl
  simp [hinstr]

set_option maxRecDepth 1000000 in
/-- Witness for C4 (amended): the empty-instruction run over `c.bin`
completes, and the invoked prompt is built with the empty instruction. -/
theorem empty_instruction_no_abort_witness :
    ((main minimatch demoEnv ⟨"", " ", "AG", "AL", false, ""⟩
        ⟨"workflow_dispatch", 7⟩ failWorld).1).isCompleted = true
    ∧ (⟨"AG", "AL", "workflow-7", "Changes:\nFile: c.bin (Status: analyzed)\n\n",
        none⟩ : AgentInvocation).prompt =
      buildPrompt
        (relevantCodeList minimatch (parsedIgnorePatterns "" ++ gitignorePatternsOf none)
          failWorld.fetch (changedFilesOf failWorld.repoContents))
        (relevantDiffsList minimatch (parsedIgnorePatterns "" ++ gitignorePatternsOf none)
          failWorld.fetch (changedFilesOf failWorld.repoContents))
        "" := by
  have T := empty_instruction_no_abort minimatch demoEnv ⟨"", " ", "AG", "AL", false, ""⟩
    ⟨"workflow_dispatch", 7⟩ failWorld (by decide) (by decide) (by decide)
    (Or.inl rfl) (by decide)
  refine ⟨T.1, ?_⟩
  exact T.2 ⟨"AG", "AL", "workflow-7", "Changes:\nFile: c.bin (Status: analyzed)\n\n", none⟩
    "## Analysis for Workflow Dispatch (Time: ts)\n\n### Files Analyzed: 0\n### Diffs Analyzed: 1\n\n### Files Processed:\n- **c.bin**: analyzed\n\nR"
    (by decide)

/-- C8: when both aggregation lists come out empty after filtering and
fetching, the run logs the warning, ends successfully without invoking the
agent and produces no AnalysisReport (outcome `warnedEmpty`). -/
theorem empty_context_soft_fail (m : Matcher) (env : Env) (inputs : Inputs)
    (ctx : Ctx) (w : World)
    (henv1 : env.githubToken ≠ "") (henv2 : env.githubRepository ≠ "")
    (hev : ctx.eventName = "workflow_dispatch" ∨ ctx.eventName = "schedule")
    (hdiffs : relevantDiffsList m
        (parsedIgnorePatterns inputs.ignorePatternsRaw ++ gitignorePatternsOf w.gitignoreText)
        w.fetch (changedFilesOf w.repoContents) = [])
    (hcode : relevantCodeList m
        (parsedIgnorePatterns inputs.ignorePatternsRaw ++ gitignorePatternsOf w.gitignoreText)
        w.fetch (changedFilesOf w.repoContents) = []) :
    (main m env inputs ctx w).1 = RunOutcome.warnedEmpty
    ∧ "No relevant files or diffs found for analysis." ∈ (main m env inputs ctx w).2 := by
  rcases hev with hev | hev <;>
    exact ⟨by simp [main, runAnalysis, henv1, henv2, hev, hdiffs, hcode],
      by simp [main, runAnalysis, henv1, henv2, hev, hdiffs, hcode]⟩

/-- Witness for C8: a schedule run over an empty repository listing. -/
theorem empty_context_soft_fail_witness :
    (main minimatch demoEnv ⟨"", "Analyze.", "AG", "AL", false, ""⟩
        ⟨"schedule", 0⟩ emptyWorld).1 = RunOutcome.warnedEmpty
    ∧ "No relevant files or diffs found for analysis." ∈
        (main minimatch demoEnv ⟨"", "Analyze.", "AG", "AL", false, ""⟩
          ⟨"schedule", 0⟩ emptyWorld).2 :=
  empty_context_soft_fail minimatch demoEnv ⟨"", "Analyze.", "AG", "AL", false, ""⟩
    ⟨"schedule", 0⟩ emptyWorld (by decide) (by decide) (Or.inr rfl)
    (by decide) (by decide)

/-- C9: the debug flag affects only logging: two runs identical in every
input except `debug` produce the same outcome — the same prompt, the same
agent-invocation arguments and the same rendered AnalysisReport. -/
theorem debug_no_data_effect (m : Matcher) (env : Env) (ctx : Ctx) (w : World)
    (raw ap aid aal mid : String) (d1 d2 : Bool) :
    (main m env ⟨raw, ap, aid, aal, d1, mid⟩ ctx w).1 =
      (main m env ⟨raw, ap, aid, aal, d2, mid⟩ ctx w).1 := by
  simp only [main]
  split_ifs <;> try rfl
  all_goals
    simp only [runAnalysis]
    split_ifs <;> rfl

/-- C10: a `memory_id` empty (or whitespace-only) after trimming is
normalized to absent and forwarded to the agent invocation as absent; a
non-empty trimmed `memory_id` is forwarded verbatim — in both entry
points. -/
theorem memoryId_normalization (raw : String) :
    (jsTrim raw = "" → memoryIdOf raw = none)
    ∧ (jsTrim raw ≠ "" → memoryIdOf raw = some (jsTrim raw))
    ∧ (∀ (m : Matcher) (env : Env) (inputs : Inputs) (ctx : Ctx) (w : World)
        (inv : AgentInvocation) (report : String),
        (main m env inputs ctx w).1 = RunOutcome.completed inv report →
        inv.memoryId = memoryIdOf inputs.memoryIdRaw)
    ∧ (∀ (ainputs : AdhocInputs) (aw : AdhocWorld)
        (inv : AgentInvocation) (report : String),
        (adhocMain ainputs aw).1 = RunOutcome.completed inv report →
        inv.memoryId = memoryIdOf ainputs.memoryIdRaw) := by
  refine ⟨fun h => by simp [memoryIdOf, h], fun h => by simp [memoryIdOf, h], ?_, ?_⟩
  · intro m env inputs ctx w inv report h
    rcases main_completed_inv m env inputs ctx w inv report h with rfl
    rfl
  · intro ainputs aw inv report h
    simp only [adhocMain] at h
    injection h with hinv hrep
    rw [← hinv]

/-- Witness for C10: whitespace-only and non-empty memory ids, and the
forwarding through a concrete ad-hoc run. -/
theorem memoryId_normalization_witness :
    memoryIdOf "   " = none
    ∧ memoryIdOf " m1 " = some (jsTrim " m1 ")
    ∧ (⟨"AG", "AL", "session-1700000000000", "hi",
        some "m1"⟩ : AgentInvocation).memoryId = memoryIdOf " m1 " := by
  refine ⟨(memoryId_normalization "   ").1 (by decide),
    (memoryId_normalization " m1 ").2.1 (by decide), ?_⟩
  exact (memoryId_normalization " m1 ").2.2.2 ⟨" hi ", " AG ", " AL ", " m1 ", false⟩
    ⟨1700000000000, fun _ => "R"⟩
    ⟨"AG", "AL", "session-1700000000000", "hi", some "m1"⟩
    "## Bedrock Agent Response\n\nR" (by decide)

end BedrockAction

namespace BedrockAction

/-! ## Digit-string lemmas for the schedule session id -/

lemma data_mk (l : List Char) : (String.mk l).data = l := rfl

lemma padChars_length (w n : Nat) : (padChars w n).length = w := by
  induction w generalizing n with
  | zero => rfl
  | succ w ih => simp [padChars, ih]

lemma digitChar_isDigit (d : Nat) (h : d < 10) : (Nat.digitChar d).isDigit = true := by
  interval_cases d <;> rfl

lemma digitChar_toNat (d : Nat) (h : d < 10) : (Nat.digitChar d).toNat = 48 + d := by
  interval_cases d <;> rfl

lemma padChars_all_digits (w n : Nat) : ∀ c ∈ padChars w n, c.isDigit = true := by
  induction w generalizing n with
  | zero => intro c hc; cases hc
  | succ w ih =>
      intro c hc
      simp only [padChars] at hc
      rcases List.mem_append.mp hc with h | h
      · exact ih _ c h
      · rcases List.mem_singleton.mp h with rfl
        exact digitChar_isDigit _ (Nat.mod_lt _ (by norm_num))

lemma foldl_padChars (w : Nat) : ∀ n a : Nat,
    (padChars w n).foldl (fun acc c => acc * 10 + (c.toNat - 48)) a =
      a * 10 ^ w + n % 10 ^ w := by
  induction w with
  | zero => intro n a; simp [padChars, Nat.mod_one]
  | succ w ih =>
      intro n a
      simp only [padChars, List.foldl_append, List.foldl_cons, List.foldl_nil]
      rw [ih]
      rw [digitChar_toNat _ (Nat.mod_lt _ (by norm_num))]
      have h48 : 48 + n % 10 - 48 = n % 10 := by omega
      rw [h48]
      have hmod : n % 10 ^ (w + 1) = n % 10 + 10 * (n / 10 % 10 ^ w) := by
        have h10 : (10:Nat) ^ (w + 1) = 10 * 10 ^ w := by ring
        rw [h10, Nat.mod_mul]
      rw [hmod]
      ring

lemma padChars_inj {w n m : Nat} (hn : n < 10 ^ w) (hm : m < 10 ^ w)
    (h : padChars w n = padChars w m) : n = m := by
  have h1 := foldl_padChars w n 0
  have h2 := foldl_padChars w m 0
  rw [h] at h1
  rw [h1] at h2
  simpa [Nat.mod_eq_of_lt hn, Nat.mod_eq_of_lt hm] using h2

lemma filter_isoChars (dt : DateTime) :
    (isoChars dt).filter Char.isDigit =
      padChars 4 dt.year ++ padChars 2 dt.month ++ padChars 2 dt.day ++
        padChars 2 dt.hour ++ padChars 2 dt.minute ++ padChars 2 dt.second ++
        padChars 3 dt.millis := by
  have hp : ∀ w n, (padChars w n).filter Char.isDigit = padChars w n := fun w n =>
    List.filter_eq_self.mpr (padChars_all_digits w n)
  have h1 : List.filter Char.isDigit ['-'] = [] := rfl
  have h2 : List.filter Char.isDigit ['T'] = [] := rfl
  have h3 : List.filter Char.isDigit [':'] = [] := rfl
  have h4 : List.filter Char.isDigit ['.'] = [] := rfl
  have h5 : List.filter Char.isDigit ['Z'] = [] := rfl
  simp [isoChars, List.filter_append, hp, h1, h2, h3, h4, h5]

lemma isoDigits_fields_eq (dt1 dt2 : DateTime) (h1 : dt1.Valid) (h2 : dt2.Valid)
    (heq : (isoChars dt1).filter Char.isDigit = (isoChars dt2).filter Char.isDigit) :
    dt1.year = dt2.year ∧ dt1.month = dt2.month ∧ dt1.day = dt2.day ∧
      dt1.hour = dt2.hour ∧ dt1.minute = dt2.minute ∧ dt1.second = dt2.second := by
  rw [filter_isoChars, filter_isoChars] at heq
  simp only [List.append_assoc] at heq
  obtain ⟨hy, heq⟩ := List.append_inj heq (by simp [padChars_length])
  obtain ⟨hmo, heq⟩ := List.append_inj heq (by simp [padChars_length])
  obtain ⟨hd, heq⟩ := List.append_inj heq (by simp [padChars_length])
  obtain ⟨hh, heq⟩ := List.append_inj heq (by simp [padChars_length])
  obtain ⟨hmi, heq⟩ := List.append_inj heq (by simp [padChars_length])
  obtain ⟨hs, _⟩ := List.append_inj heq (by simp [padChars_length])
  obtain ⟨hy1, hmo1, hd1, hh1, hmi1, hs1, _⟩ := h1
  obtain ⟨hy2, hmo2, hd2, hh2, hmi2, hs2, _⟩ := h2
  exact ⟨padChars_inj (lt_of_lt_of_le hy1 (by norm_num)) (lt_of_lt_of_le hy2 (by norm_num)) hy,
    padChars_inj (lt_of_lt_of_le hmo1 (by norm_num)) (lt_of_lt_of_le hmo2 (by norm_num)) hmo,
    padChars_inj (lt_of_lt_of_le hd1 (by norm_num)) (lt_of_lt_of_le hd2 (by norm_num)) hd,
    padChars_inj (lt_of_lt_of_le hh1 (by norm_num)) (lt_of_lt_of_le hh2 (by norm_num)) hh,
    padChars_inj (lt_of_lt_of_le hmi1 (by norm_num)) (lt_of_lt_of_le hmi2 (by norm_num)) hmi,
    padChars_inj (lt_of_lt_of_le hs1 (by norm_num)) (lt_of_lt_of_le hs2 (by norm_num)) hs⟩

lemma scheduleSessionId_inj (dt1 dt2 : DateTime) (h1 : dt1.Valid) (h2 : dt2.Valid)
    (hne : (dt1.year, dt1.month, dt1.day, dt1.hour, dt1.minute, dt1.second) ≠
      (dt2.year, dt2.month, dt2.day, dt2.hour, dt2.minute, dt2.second)) :
    scheduleSessionId (isoString dt1) ≠ scheduleSessionId (isoString dt2) := by
  intro heq
  apply hne
  have hdata := congrArg String.data heq
  simp only [scheduleSessionId, stripNonDigits, isoString, String.data_append,
    data_mk] at hdata
  have hfil : (isoChars dt1).filter Char.isDigit = (isoChars dt2).filter Char.isDigit :=
    List.append_cancel_left hdata
  obtain ⟨hy, hmo, hd, hh, hmi, hs⟩ := isoDigits_fields_eq dt1 dt2 h1 h2 hfil
  simp [Prod.ext_iff, hy, hmo, hd, hh, hmi, hs]

end BedrockAction

namespace BedrockAction

/-- C7: session-id derivation — a completed `workflow_dispatch` run invokes
the agent with session id `"workflow-<runId>"` (deterministic per run id);
a completed `schedule` run with `"schedule-"` followed by the current ISO
timestamp stripped of all non-digits, and ISO timestamps differing in any
whole-second field yield different schedule session ids; the ad-hoc entry
point uses `"session-<epochMillis>"`. -/
theorem sessionId_derivation :
    (∀ (m : Matcher) (env : Env) (inputs : Inputs) (ctx : Ctx) (w : World)
        (inv : AgentInvocation) (report : String),
      ctx.eventName = "workflow_dispatch" →
      (main m env inputs ctx w).1 = RunOutcome.completed inv report →
      inv.sessionId = "workflow-" ++ toString ctx.runId)
    ∧ (∀ (m : Matcher) (env : Env) (inputs : Inputs) (ctx : Ctx) (w : World)
        (inv : AgentInvocation) (report : String),
      ctx.eventName = "schedule" →
      (main m env inputs ctx w).1 = RunOutcome.completed inv report →
      inv.sessionId = "schedule-" ++ stripNonDigits w.nowISO)
    ∧ (∀ (ainputs : AdhocInputs) (aw : AdhocWorld)
        (inv : AgentInvocation) (report : String),
      (adhocMain ainputs aw).1 = RunOutcome.completed inv report →
      inv.sessionId = "session-" ++ toString aw.nowMillis)
    ∧ (∀ dt1 dt2 : DateTime, dt1.Valid → dt2.Valid →
      (dt1.year, dt1.month, dt1.day, dt1.hour, dt1.minute, dt1.second) ≠
        (dt2.year, dt2.month, dt2.day, dt2.hour, dt2.minute, dt2.second) →
      scheduleSessionId (isoString dt1) ≠ scheduleSessionId (isoString dt2)) := by
  refine ⟨?_, ?_, ?_, scheduleSessionId_inj⟩
  · intro m env inputs ctx w inv report hev h
    rcases main_completed_inv m env inputs ctx w inv report h with rfl
    simp [hev, dispatchSessionId]
  · intro m env inputs ctx w inv report hev h
    rcases main_completed_inv m env inputs ctx w inv report h with rfl
    have hne : ctx.eventName ≠ "workflow_dispatch" := by rw [hev]; decide
    simp [hne, scheduleSessionId]
  · intro ainputs aw inv report h
    simp only [adhocMain] at h
    injection h with hinv hrep
    rw [← hinv]
    rfl

set_option maxRecDepth 1000000 in
/-- Witness for C7: a dispatch run, a schedule run, an ad-hoc run, and two
instants one second apart. -/
theorem sessionId_derivation_witness :
    (⟨"AG", "AL", "workflow-7", "Changes:\nFile: c.bin (Status: analyzed)\n\n",
        none⟩ : AgentInvocation).sessionId = "workflow-" ++ toString (7 : Nat)
    ∧ (⟨"AG", "AL", "schedule-", "Changes:\nFile: c.bin (Status: analyzed)\n\n",
        none⟩ : AgentInvocation).sessionId = "schedule-" ++ stripNonDigits failWorld.nowISO
    ∧ (⟨"AG", "AL", "session-1700000000000", "hi",
        some "m1"⟩ : AgentInvocation).sessionId =
      "session-" ++ toString (1700000000000 : Nat)
    ∧ scheduleSessionId (isoString ⟨2026, 1, 1, 0, 0, 0, 0⟩) ≠
        scheduleSessionId (isoString ⟨2026, 1, 1, 0, 0, 1, 0⟩) := by
  refine ⟨?_, ?_, ?_, ?_⟩
  · exact sessionId_derivation.1 minimatch demoEnv ⟨"", " ", "AG", "AL", false, ""⟩
      ⟨"workflow_dispatch", 7⟩ failWorld _
      "## Analysis for Workflow Dispatch (Time: ts)\n\n### Files Analyzed: 0\n### Diffs Analyzed: 1\n\n### Files Processed:\n- **c.bin**: analyzed\n\nR"
      rfl (by decide)
  · exact sessionId_derivation.2.1 minimatch demoEnv ⟨"", " ", "AG", "AL", false, ""⟩
      ⟨"schedule", 0⟩ failWorld _
      "## Analysis for Scheduled Run (Time: ts)\n\n### Files Analyzed: 0\n### Diffs Analyzed: 1\n\n### Files Processed:\n- **c.bin**: analyzed\n\nR"
      rfl (by decide)
  · exact sessionId_derivation.2.2.1 ⟨" hi ", " AG ", " AL ", " m1 ", false⟩
      ⟨1700000000000, fun _ => "R"⟩ _ "## Bedrock Agent Response\n\nR" (by decide)
  · exact sessionId_derivation.2.2.2 ⟨2026, 1, 1, 0, 0, 0, 0⟩ ⟨2026, 1, 1, 0, 0, 1, 0⟩
      (by decide) (by decide) (by decide)

end BedrockAction
